import Mathlib

/-!
Shallow embedding of the AI-Coach repository's ingestion and retrieval
pipeline (`notion_loader.py`, `rag.py`, `usage_store.py`, `app.py`,
`main.py`) together with theorems that check the specification's claims
against it.  Strings manipulated character-wise (identifier normalization,
chunking) are modelled as `List Char`; other text stays `String`.
-/

/-- Embedding of Python's `str.strip()` on character lists: drop whitespace
from both ends. -/
def pyStrip (s : List Char) : List Char :=
  ((s.dropWhile Char.isWhitespace).reverse.dropWhile Char.isWhitespace).reverse

/-- Embedding of Python's `str.strip()` on `String`. -/
def pyStripS (s : String) : String :=
  String.mk (pyStrip s.data)

/-- Model of one inline rich-text span: the `plain_text` field and the nested
`text.content` field the loader falls back to. -/
structure RichTextItem where
  plain_text : String
  content : String
deriving DecidableEq, Repr

/-- Embedding of `_extract_rich_text` (notion_loader.py:14-20): concatenate
each span's `plain_text`, falling back to `text.content` when `plain_text`
is empty (Python's `or` on strings). -/
def extractRichText (rich_text : List RichTextItem) : String :=
  String.join (rich_text.map (fun item =>
    if item.plain_text = "" then item.content else item.plain_text))

/-- Model of the type-discriminated payload of a Notion block: each block
carries a `type` string selecting a payload.  `withRichText` stands for any
block type whose payload has a `rich_text` array (paragraph, heading, code,
list item, ...), matching the `"rich_text" in type_data` test the loader
performs first. -/
inductive BlockData where
  | withRichText (rich_text : List RichTextItem)
  | childPage (title : String)
  | childDatabase (title : String)
  | bookmark (url : String)
  | embed (url : String)
  | equation (expression : String)
  | unsupportedBlock
  | otherBlock
deriving DecidableEq, Repr

/-- Embedding of `_extract_block_text` (notion_loader.py:23-38): rich-text
blocks concatenate their spans, child pages/databases yield their title,
bookmarks/embeds their URL, equations their expression, anything else the
empty string. -/
def extractBlockText : BlockData → String
  | .withRichText rt => extractRichText rt
  | .childPage title => title
  | .childDatabase title => title
  | .bookmark url => url
  | .embed url => url
  | .equation expression => expression
  | .unsupportedBlock => ""
  | .otherBlock => ""

/-- Model of a Notion block as returned by the API: the fields the loader
reads (`archived`, `in_trash`, `has_children`, the typed payload) plus the
paginated listing of its children — `childPages` holds the successive
responses the `blocks.children.list` cursor loop would receive. -/
inductive Block where
  | mk (id : String) (archived : Bool) (in_trash : Bool) (has_children : Bool)
      (data : BlockData) (childPages : List (List Block))

/-- Own text contribution of a block (notion_loader.py:57-59): the stripped
extracted text when nonempty, else nothing. -/
def blockOwnText (data : BlockData) : List String :=
  if pyStripS (extractBlockText data) = "" then []
  else [pyStripS (extractBlockText data)]

mutual

/-- Embedding of the paginated `while True` loop of `_fetch_blocks_recursive`
(notion_loader.py:49-65): each element of the list is one API response page;
the loop processes a page's results, then follows `next_cursor` to the next
page while `has_more` holds, i.e. until the page list is exhausted. -/
def fetchBlocksRecursive : List (List Block) → List String
  | [] => []
  | page :: rest => fetchPageBlocks page ++ fetchBlocksRecursive rest

/-- Embedding of the `for block in resp.get("results", [])` body of
`_fetch_blocks_recursive`. -/
def fetchPageBlocks : List Block → List String
  | [] => []
  | b :: bs => fetchOneBlock b ++ fetchPageBlocks bs

/-- Embedding of the per-block body of `_fetch_blocks_recursive`: archived or
in-trash blocks are skipped entirely; otherwise the block's own stripped
text is appended first and then, when `has_children`, the recursive fetch of
its child listing. -/
def fetchOneBlock : Block → List String
  | .mk _ archived in_trash has_children data childPages =>
    if archived || in_trash then []
    else
      blockOwnText data ++
        (if has_children then fetchBlocksRecursive childPages else [])

end

/-- Reading order as the specification words it (spec §4.1): a non-skipped
block contributes its own text first, then — when it has children — the
blocks of every page of its child listing concatenated in page order,
depth-first. -/
def readingOrder : Block → List String
  | .mk _ archived in_trash has_children data childPages =>
    if archived || in_trash then []
    else
      blockOwnText data ++
        (if has_children then
          childPages.flatten.attach.flatMap (fun x => readingOrder x.1)
        else [])
termination_by b => sizeOf b
decreasing_by
  simp_wf
  obtain ⟨l, hl, hx⟩ := List.mem_flatten.mp x.2
  have h1 := List.sizeOf_lt_of_mem hx
  have h2 := List.sizeOf_lt_of_mem hl
  omega

/-- Model of one entry of a Notion page's `properties` dict: each property
carries a `type` discriminator; the loader only special-cases `title`. -/
inductive PropVal where
  | titleProp (title : List RichTextItem)
  | otherProp
deriving DecidableEq, Repr

/-- Embedding of `_get_page_title_from_props` (notion_loader.py:41-46): scan
the properties in order, return the extracted rich text of the first
title-typed property (or "Untitled" when its array is empty), and "Untitled"
when no title-typed property exists. -/
def getPageTitleFromProps : List (String × PropVal) → String
  | [] => "Untitled"
  | (_, .titleProp arr) :: _ =>
      if arr.isEmpty then "Untitled" else extractRichText arr
  | (_, .otherProp) :: rest => getPageTitleFromProps rest

/-- Model of a block seen by the fallible full-tree fetch: same fields as
`Block`, but each element of `childPages` is one response of the
`blocks.children.list` cursor loop, which may raise (`Except.error`). -/
inductive FBlock where
  | mk (archived : Bool) (in_trash : Bool) (has_children : Bool)
      (data : BlockData) (childPages : List (Except String (List FBlock)))

/-- Own text contribution of a block inside `_fetch_block_text_full`
(notion_loader.py:84-89): rich-text blocks contribute their concatenated
spans when nonempty (no stripping), child pages contribute their title
unconditionally, every other type contributes nothing. -/
def fetchFullOwn : BlockData → List String
  | .withRichText rt =>
      let txt := extractRichText rt
      if txt = "" then [] else [txt]
  | .childPage title => [title]
  | _ => []

/-- Embedding of the final `"\n".join(p for p in parts if p and p.strip())`
of `_fetch_block_text_full` (notion_loader.py:76,98). -/
def joinNonBlank (parts : List String) : String :=
  String.intercalate "\n" (parts.filter (fun p => !p.isEmpty && !(pyStripS p).isEmpty))

mutual

/-- Embedding of the cursor loop of `_fetch_block_text_full`
(notion_loader.py:68-98): an exception on a `blocks.children.list` call
(`Except.error`) stops the loop and the parts gathered so far are kept;
otherwise the page's results are processed and the loop continues while
`has_more`. -/
def fetchFullPages : List (Except String (List FBlock)) → List String
  | [] => []
  | .error _ :: _ => []
  | .ok page :: rest => fetchFullBlocks page ++ fetchFullPages rest

/-- Embedding of the `for block in resp.get("results", [])` body of
`_fetch_block_text_full`. -/
def fetchFullBlocks : List FBlock → List String
  | [] => []
  | b :: bs => fetchFullBlock b ++ fetchFullBlocks bs

/-- Embedding of the per-block body of `_fetch_block_text_full`: archived,
in-trash and `unsupported` blocks are skipped (children included); otherwise
the block's own contribution comes first and then, when `has_children`, the
joined recursive fetch of the child listing as a single part. -/
def fetchFullBlock : FBlock → List String
  | .mk archived in_trash has_children data childPages =>
    if archived || in_trash then []
    else
      match data with
      | .unsupportedBlock => []
      | d =>
          fetchFullOwn d ++
            (if has_children then
              [joinNonBlank (fetchFullPages childPages)]
            else [])

end

/-- Embedding of `_fetch_block_text_full`'s return value: the gathered parts
joined by newlines, blank parts dropped.  Total: a fetch failure never
escapes this function (notion_loader.py:74-76,93-94). -/
def fetchBlockTextFull (childPages : List (Except String (List FBlock))) : String :=
  joinNonBlank (fetchFullPages childPages)

/-- Model of the fields `NotionDataSourceLoader.lazy_load` reads from one row
of a data-source query: its id, its properties, and the paginated (fallible)
listing of its block children. -/
structure DSRow where
  id : String
  props : List (String × PropVal)
  content : List (Except String (List FBlock))

/-- Model of a produced langchain `Document`: `page_content` plus the
`source` and `title` metadata the loaders set. -/
structure Document where
  page_content : String
  source : String
  title : String
deriving DecidableEq, Repr

/-- Embedding of the per-row body of `NotionDataSourceLoader.lazy_load`
(notion_loader.py:141-147): extract the title, fetch the row's full block
text, and substitute the `[Page: <title>]` placeholder when that content is
blank after stripping. -/
def dsRowDoc (row : DSRow) : Document :=
  let title := getPageTitleFromProps row.props
  let content := fetchBlockTextFull row.content
  let content2 := if pyStripS content = "" then "[Page: " ++ title ++ "]" else content
  ⟨content2, row.id, title⟩

/-- Embedding of the cursor loop of `NotionDataSourceLoader.lazy_load`
(notion_loader.py:138-150): each element is one `data_sources.query`
response page; every row of every page yields exactly one Document. -/
def dsLazyLoad : List (List DSRow) → List Document
  | [] => []
  | page :: rest => page.map dsRowDoc ++ dsLazyLoad rest

/-- Embedding of the hyphenation step both loaders apply before use
(notion_loader.py:113,136-137): a 32-character identifier is rewritten to
the canonical 8-4-4-4-12 form, anything else is left unchanged. -/
def hyphenateId (raw : String) : String :=
  if raw.length = 32 then
    raw.take 8 ++ "-" ++ (raw.drop 8).take 4 ++ "-" ++ (raw.drop 12).take 4
      ++ "-" ++ (raw.drop 16).take 4 ++ "-" ++ raw.drop 20
  else raw

/-- Model of the two Notion API calls `NotionPageLoader.lazy_load` performs
per page id; either may fail (`Except.error`). -/
structure PageAPI where
  retrievePage : String → Except String (List (String × PropVal))
  listBlocks : String → Except String (List (List Block))

/-- Embedding of `NotionPageLoader.lazy_load` (notion_loader.py:110-121) over
the already-normalized `self.page_ids`: hyphenate each id, retrieve the page
and its block tree, build the Document; any failure is re-raised as the
fatal "Failed to load page ..." error, aborting the fetch call. -/
def pageLoaderLoad (api : PageAPI) : List String → Except String (List Document)
  | [] => .ok []
  | raw :: rest =>
    let page_id := hyphenateId raw
    match api.retrievePage page_id with
    | .error e => .error ("Failed to load page " ++ page_id ++ ": " ++ e)
    | .ok props =>
      match api.listBlocks page_id with
      | .error e => .error ("Failed to load page " ++ page_id ++ ": " ++ e)
      | .ok bpages =>
        let title := getPageTitleFromProps props
        let blocks := fetchBlocksRecursive bpages
        let content := if blocks.isEmpty then "[Page: " ++ title ++ "]"
                       else String.intercalate "\n\n" blocks
        match pageLoaderLoad api rest with
        | .error e => .error e
        | .ok docs => .ok (⟨content, page_id, title⟩ :: docs)

/-- Embedding of the `.replace("-", "")` step both loader constructors apply
(notion_loader.py:105,128): remove every hyphen. -/
def removeHyphens (s : List Char) : List Char :=
  s.filter (fun c => c != '-')

/-- Character-list version of the hyphenation step (notion_loader.py:113,
136-137): a 32-character identifier is rewritten to the canonical
8-4-4-4-12 form, anything else is left unchanged. -/
def hyphenate32L (s : List Char) : List Char :=
  if s.length = 32 then
    s.take 8 ++ ['-'] ++ (s.drop 8).take 4 ++ ['-'] ++ (s.drop 12).take 4
      ++ ['-'] ++ (s.drop 16).take 4 ++ ['-'] ++ s.drop 20
  else s

/-- Composition of the identifier handling both loaders perform before use:
the constructor strips whitespace and removes hyphens
(notion_loader.py:105,128), and `lazy_load` hyphenates 32-character
identifiers (notion_loader.py:113,136-137). -/
def normalizeNotionId (s : List Char) : List Char :=
  hyphenate32L (removeHyphens (pyStrip s))

/-- Model of one stored vector record (spec §3): id, chunk text, metadata;
the embedding itself is opaque and only enters through the similarity
ranking below. -/
structure VecRecord where
  id : String
  text : String
  source : String
deriving DecidableEq, Repr

/-- Modelled from the spec: similarity ranking is delegated to the underlying
vector store (Chroma), whose code is not part of this repository; spec §4.4
only requires an ordering of the stored records by similarity to the query.
`insertBySim` inserts a record into an already ranked list. -/
def insertBySim (sim : VecRecord → Int) (r : VecRecord) : List VecRecord → List VecRecord
  | [] => [r]
  | x :: xs => if sim x ≤ sim r then r :: x :: xs else x :: insertBySim sim r xs

/-- Modelled from the spec: rank the stored records most-similar-first. -/
def rankBySim (sim : VecRecord → Int) : List VecRecord → List VecRecord
  | [] => []
  | x :: xs => insertBySim sim x (rankBySim sim xs)

/-- Modelled from the spec: `retrieve(q, k)` (spec §4.4) — the top-`k` most
similar stored records.  `rag.py` requests it via
`vectorstore.as_retriever(search_kwargs={"k": k})` with `k = 8`
(rag.py:117-118,151). -/
def retrieve (sim : String → VecRecord → Int) (index : List VecRecord)
    (q : String) (k : Nat) : List VecRecord :=
  (rankBySim (sim q) index).take k

/-- Value of `k` the repository passes at every retrieval call site
(rag.py:117,151,159). -/
def queryTopK : Nat := 8

/-- Message `app.py:95` returns when no persisted store exists. -/
def noKnowledgeBaseMsg : String :=
  "⚠️ No knowledge base found. Run ingest first to index your Notion notes."

/-- Embedding of `get_answer` composed with `get_rag` (app.py:83-99): `chain`
is `none` when no persisted store exists at the well-known location
(`get_rag` returns `None`), otherwise the generation chain, which may fail
(`Except.error`).  Every chain failure is converted to the user-safe
"Sorry, something went wrong: ..." string. -/
def get_answer (chain : Option (String → Except String String))
    (question : String) : String :=
  match chain with
  | none => noKnowledgeBaseMsg
  | some ch =>
    match ch question with
    | .ok ans => ans
    | .error e => "Sorry, something went wrong: " ++ e

/-- Model of one user's per-day counters (`usage_store.py`): a Python dict
mapping date strings to counts, in insertion order; the legacy format keeps
a count under the literal key "prompts_used". -/
abbrev UserRec := List (String × Nat)

/-- Model of the persisted usage file: a dict mapping e-mail to that user's
per-day counters, in insertion order. -/
abbrev UsageData := List (String × UserRec)

/-- Embedding of Python dict lookup `d.get(k)` on an insertion-ordered
association list. -/
def lookupKey {α : Type} (l : List (String × α)) (k : String) : Option α :=
  (l.find? (fun kv => kv.1 == k)).map (fun kv => kv.2)

/-- Embedding of Python dict assignment `d[k] = v`: update in place when the
key exists, else append. -/
def setKey {α : Type} : List (String × α) → String → α → List (String × α)
  | [], k, v => [(k, v)]
  | (k0, v0) :: rest, k, v =>
      if k0 == k then (k0, v) :: rest else (k0, v0) :: setKey rest k v

/-- Daily prompt limit (usage_store.py:7). -/
def DAILY_LIMIT : Nat := 10

/-- Embedding of `get_usage` (usage_store.py:29-38), with the current date
passed explicitly (`_today()`): read the user's record (empty when absent),
apply the legacy-format migration, read today's count, and report whether it
is still under the daily limit. -/
def get_usage (today : String) (data : UsageData) (email : String) : Nat × Bool :=
  let user := (lookupKey data email).getD []
  let user := if (lookupKey user "prompts_used").isSome
              then [(today, (lookupKey user "prompts_used").getD 0)]
              else user
  let used_today := (lookupKey user today).getD 0
  (used_today, decide (used_today < DAILY_LIMIT))

/-- Embedding of `increment_usage` (usage_store.py:41-52): create the user's
record when absent, migrate the legacy format when today's key is missing,
then add one to today's count and write the record back. -/
def increment_usage (today : String) (data : UsageData) (email : String) : UsageData :=
  let data := if (lookupKey data email).isSome then data else setKey data email []
  let user := (lookupKey data email).getD []
  let user := if (lookupKey user "prompts_used").isSome ∧ (lookupKey user today).isNone
              then [(today, (lookupKey user "prompts_used").getD 0)]
              else user
  let user := setKey user today ((lookupKey user today).getD 0 + 1)
  setKey data email user

/-- Iterated `increment_usage` for one user on one day. -/
def iterIncrement (today : String) (email : String) : Nat → UsageData → UsageData
  | 0, data => data
  | n + 1, data => iterIncrement today email n (increment_usage today data email)

/-- Modelled from the spec: the hard character-boundary last resort of the
chunker (spec §4.2); the repository delegates chunking to langchain's
`RecursiveCharacterTextSplitter`, whose code is not part of this repository.
Cut the text into consecutive pieces of at most `size` characters. -/
def hardSplit (size : Nat) (text : List Char) : List (List Char) :=
  if h : size = 0 ∨ text.length ≤ size then [text]
  else text.take size :: hardSplit size (text.drop size)
termination_by text.length
decreasing_by
  simp only [List.length_drop]
  push_neg at h
  omega

/-- Modelled from the spec: split a text at every occurrence of a separator
(Python `str.split` semantics, separators removed). -/
def splitOnSep (sep : List Char) : List Char → List (List Char)
  | [] => [[]]
  | c :: cs =>
    if h : sep ≠ [] ∧ sep.isPrefixOf (c :: cs) then
      [] :: splitOnSep sep ((c :: cs).drop sep.length)
    else
      match splitOnSep sep cs with
      | [] => [[c]]
      | p :: ps => (c :: p) :: ps
termination_by t => t.length
decreasing_by
  · simp only [List.length_drop]
    have hpos := List.length_pos.mpr h.1
    simp only [List.length_cons]
    omega
  · simp

/-- Modelled from the spec: recursive splitting along the priority-ordered
separator list (spec §4.2) — a text within `size` stands as one piece;
otherwise split at the current separator and recurse on each fragment with
the remaining separators, falling back to the hard character boundary when
no separator is left. -/
def splitRec (size : Nat) : List (List Char) → List Char → List (List Char)
  | seps, t =>
    if t.length ≤ size then [t]
    else
      match seps with
      | [] => hardSplit size t
      | s :: rest => (splitOnSep s t).flatMap (fun piece => splitRec size rest piece)

/-- Last `n` characters of a text (the overlap carried into the next
chunk). -/
def takeRight (n : Nat) (l : List Char) : List Char :=
  l.drop (l.length - n)

/-- Modelled from the spec: greedy merging of split fragments into chunks of
at most `size` characters, carrying `overlap` trailing characters of an
emitted chunk into the next one when that still fits (spec §4.2). -/
def mergeSplits (size overlap : Nat) : List Char → List (List Char) → List (List Char)
  | acc, [] => [acc]
  | acc, p :: ps =>
    if acc.length + p.length ≤ size then
      mergeSplits size overlap (acc ++ p) ps
    else
      acc ::
        (if (takeRight overlap acc ++ p).length ≤ size then
          mergeSplits size overlap (takeRight overlap acc ++ p) ps
        else
          mergeSplits size overlap p ps)

/-- Separator priority list the repository passes to the splitter
(rag.py:95): paragraph break, line break, sentence end, space; the final ""
entry is the hard character fallback (`hardSplit`). -/
def chunkSeparators : List (List Char) :=
  ["\n\n".data, "\n".data, ". ".data, " ".data]

/-- Modelled from the spec: chunk one text — split recursively, merge with
overlap, drop empty chunks (spec §3: an empty Document yields zero
chunks). -/
def chunkText (size overlap : Nat) (t : List Char) : List (List Char) :=
  (mergeSplits size overlap [] (splitRec size chunkSeparators t)).filter
    (fun c => !c.isEmpty)

/-- Embedding of `splitter.split_documents(documents)` (rag.py:93-97): chunk
every document's text. -/
def splitDocuments (size overlap : Nat) (docs : List Document) : List (List Char) :=
  docs.flatMap (fun d => chunkText size overlap d.page_content.data)

/-- Default chunk size (rag.py:30). -/
def DEFAULT_CHUNK_SIZE : Nat := 800

/-- Default chunk overlap (rag.py:31). -/
def DEFAULT_CHUNK_OVERLAP : Nat := 150

/-- Error message `create_vector_store` raises on an empty documents list
(rag.py:92). -/
def noDocumentsMsg : String := "No documents to process."

/-- Embedding of `create_vector_store` (rag.py:89-106): reject an empty
documents list, otherwise chunk the documents and build the store from the
chunks (embedding and persistence are external side effects; the result is
the indexed chunk list). -/
def createVectorStore (documents : List Document)
    (chunk_size chunk_overlap : Nat) : Except String (List (List Char)) :=
  if documents.isEmpty then .error noDocumentsMsg
  else .ok (splitDocuments chunk_size chunk_overlap documents)

/-- Model of the external collaborators `load_notion_documents` calls per
identifier: data-source discovery, and the three loaders' `load()` results
(each may raise, modelled as `Except.error`). -/
structure NotionEnv where
  discover : String → Option String
  dsDocs : String → Except String (List Document)
  dbDocs : String → Except String (List Document)
  pageDocs : String → Except String (List Document)

/-- Embedding of the `for raw_id in page_ids` loop of
`load_notion_documents` (rag.py:69-84): normalize each entry, silently skip
it when the normalized form is not 32 characters, otherwise try data-source
discovery (deduplicated through `seen_ds`) and fall back to the page
loader. -/
def loadPagesLoop (env : NotionEnv) : List String → List String → Except String (List Document)
  | _, [] => .ok []
  | seen, raw :: rest =>
    if (String.mk (removeHyphens (pyStrip raw.data))).length ≠ 32 then
      loadPagesLoop env seen rest
    else
      match env.discover (hyphenateId (String.mk (removeHyphens (pyStrip raw.data)))) with
      | some ds_id =>
          if ds_id ∈ seen then loadPagesLoop env seen rest
          else
            match env.dsDocs ds_id with
            | .error e => .error e
            | .ok ds =>
                match loadPagesLoop env (ds_id :: seen) rest with
                | .error e => .error e
                | .ok docs => .ok (ds ++ docs)
      | none =>
          match env.pageDocs (String.mk (removeHyphens (pyStrip raw.data))) with
          | .error e => .error e
          | .ok ps =>
              match loadPagesLoop env seen rest with
              | .error e => .error e
              | .ok docs => .ok (ps ++ docs)

/-- Embedding of `load_notion_documents` (rag.py:48-86): a data-source id
short-circuits everything; a database id contributes documents with
exceptions swallowed (`try/except: pass`); the page-id loop then appends its
documents. -/
def loadNotionDocuments (env : NotionEnv) (page_ids : Option (List String))
    (database_id : Option String) (data_source_id : Option String) :
    Except String (List Document) :=
  match data_source_id with
  | some ds => env.dsDocs ds
  | none =>
    let dbPart := match database_id with
      | some db =>
          match env.dbDocs db with
          | .ok ds => ds
          | .error _ => []
      | none => []
    match page_ids with
    | none => .ok dbPart
    | some ids =>
        match loadPagesLoop env [] ids with
        | .error e => .error e
        | .ok docs => .ok (dbPart ++ docs)

theorem fetchPageBlocks_eq_flatMap (l : List Block) :
    fetchPageBlocks l = l.flatMap fetchOneBlock := by
  induction l with
  | nil => rfl
  | cons b bs ih => simp [fetchPageBlocks, ih, List.flatMap_cons]

theorem fetchBlocksRecursive_eq_flatten (pages : List (List Block)) :
    fetchBlocksRecursive pages = pages.flatten.flatMap fetchOneBlock := by
  induction pages with
  | nil => rfl
  | cons p rest ih =>
      simp [fetchBlocksRecursive, fetchPageBlocks_eq_flatMap, ih,
        List.flatten_cons, List.flatMap_append]

theorem sizeOf_mem_childPages {a : Block} {id : String}
    {archived in_trash has_children : Bool} {data : BlockData}
    {childPages : List (List Block)} (ha : a ∈ childPages.flatten) :
    sizeOf a < sizeOf (Block.mk id archived in_trash has_children data childPages) := by
  obtain ⟨l, hl, hx⟩ := List.mem_flatten.mp ha
  have h1 := List.sizeOf_lt_of_mem hx
  have h2 := List.sizeOf_lt_of_mem hl
  simp only [Block.mk.sizeOf_spec]
  omega

theorem flatMap_congr_mem {α β : Type} {l : List α} {f g : α → List β}
    (h : ∀ a ∈ l, f a = g a) : l.flatMap f = l.flatMap g := by
  induction l with
  | nil => rfl
  | cons a as ih =>
      simp only [List.flatMap_cons, h a (List.mem_cons_self a as)]
      rw [ih (fun x hx => h x (List.mem_cons_of_mem a hx))]

theorem attach_flatMap {α β : Type} (l : List α) (f : α → List β) :
    l.attach.flatMap (fun x => f x.1) = l.flatMap f := by
  conv_rhs => rw [← List.attach_map_subtype_val l]
  rw [List.flatMap_map]

theorem fetchOneBlock_eq_readingOrder_aux :
    ∀ (n : Nat) (b : Block), sizeOf b ≤ n → fetchOneBlock b = readingOrder b := by
  intro n
  induction n using Nat.strong_induction_on with
  | _ n ih =>
    intro b hb
    match b with
    | .mk id archived in_trash has_children data childPages =>
      rw [fetchOneBlock, readingOrder]
      cases h : (archived || in_trash) with
      | true => rfl
      | false =>
        rw [if_neg Bool.false_ne_true, if_neg Bool.false_ne_true]
        congr 1
        cases hc : has_children with
        | false => rfl
        | true =>
          rw [if_pos rfl, if_pos rfl]
          rw [fetchBlocksRecursive_eq_flatten, attach_flatMap]
          apply flatMap_congr_mem
          intro a ha
          have hlt : sizeOf a < sizeOf (Block.mk id archived in_trash has_children data childPages) :=
            sizeOf_mem_childPages ha
          exact ih (sizeOf a) (lt_of_lt_of_le hlt hb) a le_rfl

theorem fetchOneBlock_eq_readingOrder (b : Block) :
    fetchOneBlock b = readingOrder b :=
  fetchOneBlock_eq_readingOrder_aux (sizeOf b) b le_rfl

/-- C1: the recursive block-tree fetch `_fetch_blocks_recursive` returns, for
the (paginated) listing it is given, exactly the specification's reading
order: every page of the listing is covered in cursor order, and each block
contributes its own extracted text before any text of its children. -/
theorem fetch_blocks_recursive_reading_order (pages : List (List Block)) :
    fetchBlocksRecursive pages = pages.flatten.flatMap readingOrder := by
  rw [fetchBlocksRecursive_eq_flatten]
  exact flatMap_congr_mem (fun a _ => fetchOneBlock_eq_readingOrder a)

theorem dsLazyLoad_eq_map (pages : List (List DSRow)) :
    dsLazyLoad pages = pages.flatten.map dsRowDoc := by
  induction pages with
  | nil => rfl
  | cons page rest ih => simp [dsLazyLoad, ih, List.flatten_cons]

theorem placeholder_ne_empty (t : String) : "[Page: " ++ t ++ "]" ≠ "" := by
  intro h
  have h2 := congrArg String.length h
  rw [String.length_append, String.length_append] at h2
  have h7 : ("[Page: " : String).length = 7 := by decide
  simp [h7] at h2

/-- C2: fetch failures are asymmetric.  First conjunct: in
`NotionPageLoader.lazy_load`, a failure retrieving any listed page or its
blocks makes the whole fetch call fail — the page is never silently dropped.
Second conjunct: `NotionDataSourceLoader.lazy_load` yields exactly one
Document per row of every page of the listing, whatever per-row block-fetch
failures occur inside `_fetch_block_text_full` (which is total by
construction), so the listing is never aborted. -/
theorem page_failure_fatal_row_failure_nonfatal :
    (∀ (api : PageAPI) (ids : List String) (raw : String), raw ∈ ids →
        ((∃ e, api.retrievePage (hyphenateId raw) = .error e) ∨
         (∃ e, api.listBlocks (hyphenateId raw) = .error e)) →
        ∃ e, pageLoaderLoad api ids = .error e) ∧
    (∀ pages : List (List DSRow), (dsLazyLoad pages).length = pages.flatten.length) := by
  constructor
  · intro api ids raw hmem hfail
    induction ids with
    | nil => cases hmem
    | cons id0 rest ih =>
        rw [pageLoaderLoad]
        cases hr : api.retrievePage (hyphenateId id0) with
        | error e => exact ⟨_, rfl⟩
        | ok props =>
          cases hbk : api.listBlocks (hyphenateId id0) with
          | error e => exact ⟨_, rfl⟩
          | ok bpages =>
            rcases List.mem_cons.mp hmem with heq | hmem'
            · subst heq
              rcases hfail with ⟨e, he⟩ | ⟨e, he⟩
              · rw [he] at hr; cases hr
              · rw [he] at hbk; cases hbk
            · obtain ⟨e, he⟩ := ih hmem'
              rw [he]
              exact ⟨_, rfl⟩
  · intro pages
    rw [dsLazyLoad_eq_map, List.length_map]

/-- C2 witness: a concrete API whose page retrieval fails makes the page
loader fail, and a concrete two-page row listing yields one Document per
row. -/
theorem page_failure_fatal_row_failure_nonfatal_witness :
    (∃ e, pageLoaderLoad ⟨fun _ => .error "boom", fun _ => .ok []⟩ ["x"] = .error e) ∧
    (dsLazyLoad [[⟨"r1", [], []⟩], [⟨"r2", [], []⟩]]).length
      = ([[⟨"r1", [], []⟩], [⟨"r2", [], []⟩]] : List (List DSRow)).flatten.length :=
  ⟨page_failure_fatal_row_failure_nonfatal.1
      ⟨fun _ => .error "boom", fun _ => .ok []⟩ ["x"] "x"
      (List.mem_singleton.mpr rfl) (Or.inl ⟨"boom", rfl⟩),
   page_failure_fatal_row_failure_nonfatal.2 [[⟨"r1", [], []⟩], [⟨"r2", [], []⟩]]⟩

/-- C3: a data-source row whose fetched block content is blank after
stripping yields the Document text `[Page: <title>]`, and no Document
yielded by `NotionDataSourceLoader.lazy_load` ever has empty text. -/
theorem ds_row_blank_content_placeholder :
    (∀ row : DSRow, pyStripS (fetchBlockTextFull row.content) = "" →
        (dsRowDoc row).page_content
          = "[Page: " ++ getPageTitleFromProps row.props ++ "]") ∧
    (∀ (pages : List (List DSRow)), ∀ doc ∈ dsLazyLoad pages,
        doc.page_content ≠ "") := by
  constructor
  · intro row hblank
    simp only [dsRowDoc, hblank]
    rfl
  · intro pages doc hdoc
    rw [dsLazyLoad_eq_map] at hdoc
    obtain ⟨row, _, hrow⟩ := List.mem_map.mp hdoc
    subst hrow
    simp only [dsRowDoc]
    by_cases hb : pyStripS (fetchBlockTextFull row.content) = ""
    · rw [if_pos hb]
      exact placeholder_ne_empty _
    · rw [if_neg hb]
      intro he
      rw [he] at hb
      exact hb (by decide)

/-- C3 witness: a concrete row with no block content yields exactly the
placeholder text, and that Document's text is nonempty. -/
theorem ds_row_blank_content_placeholder_witness :
    (dsRowDoc ⟨"r", [], []⟩).page_content
        = "[Page: " ++ getPageTitleFromProps ([] : List (String × PropVal)) ++ "]" ∧
    (dsRowDoc ⟨"r", [], []⟩).page_content ≠ "" :=
  ⟨ds_row_blank_content_placeholder.1 ⟨"r", [], []⟩ (by decide),
   ds_row_blank_content_placeholder.2 [[⟨"r", [], []⟩]] (dsRowDoc ⟨"r", [], []⟩)
      (by simp [dsLazyLoad])⟩

theorem dropWhile_all_append {p : Char → Bool} {l1 l2 : List Char}
    (h : ∀ c ∈ l1, p c = true) :
    List.dropWhile p (l1 ++ l2) = List.dropWhile p l2 := by
  induction l1 with
  | nil => rfl
  | cons a as ih =>
      rw [List.cons_append, List.dropWhile_cons,
        if_pos (h a (List.mem_cons_self a as))]
      exact ih (fun c hc => h c (List.mem_cons_of_mem a hc))

theorem dropWhile_head_false {p : Char → Bool} {l : List Char}
    (hne : l ≠ []) (h : ∀ c ∈ l, p c = false) :
    List.dropWhile p l = l := by
  cases l with
  | nil => cases hne rfl
  | cons a as =>
      rw [List.dropWhile_cons]
      rw [h a (List.mem_cons_self a as)]
      simp

theorem dropWhile_head_false_append {p : Char → Bool} {m rest : List Char}
    (hne : m ≠ []) (h : ∀ c ∈ m, p c = false) :
    List.dropWhile p (m ++ rest) = m ++ rest := by
  cases m with
  | nil => cases hne rfl
  | cons a as =>
      rw [List.cons_append, List.dropWhile_cons,
        h a (List.mem_cons_self a as)]
      simp

theorem pyStrip_pad {pre post m : List Char}
    (hpre : ∀ c ∈ pre, c.isWhitespace = true)
    (hpost : ∀ c ∈ post, c.isWhitespace = true)
    (hm : ∀ c ∈ m, c.isWhitespace = false) (hne : m ≠ []) :
    pyStrip (pre ++ m ++ post) = m := by
  rw [pyStrip, List.append_assoc, dropWhile_all_append hpre,
    dropWhile_head_false_append hne hm, List.reverse_append,
    dropWhile_all_append (fun c hc => hpost c (List.mem_reverse.mp hc)),
    dropWhile_head_false (by simpa using hne)
      (fun c hc => hm c (List.mem_reverse.mp hc)),
    List.reverse_reverse]

theorem removeHyphens_eq_self {s : List Char} (h : ∀ c ∈ s, c ≠ '-') :
    removeHyphens s = s :=
  List.filter_eq_self.mpr (fun a ha => by simpa using h a ha)

theorem take_take_drop_assemble (s : List Char) :
    s.take 8 ++ (s.drop 8).take 4 ++ (s.drop 12).take 4
      ++ (s.drop 16).take 4 ++ s.drop 20 = s := by
  have h12 : s.take 8 ++ (s.drop 8).take 4 = s.take 12 := by
    have h := (List.take_add s 8 4).symm
    norm_num at h
    exact h
  have h16 : s.take 12 ++ (s.drop 12).take 4 = s.take 16 := by
    have h := (List.take_add s 12 4).symm
    norm_num at h
    exact h
  have h20 : s.take 16 ++ (s.drop 16).take 4 = s.take 20 := by
    have h := (List.take_add s 16 4).symm
    norm_num at h
    exact h
  rw [h12, h16, h20, List.take_append_drop]

theorem removeHyphens_hyphenate {s : List Char} (hlen : s.length = 32)
    (h : ∀ c ∈ s, c ≠ '-') :
    removeHyphens (hyphenate32L s) = s := by
  have hpiece : ∀ t : List Char, t ⊆ s → List.filter (fun c => c != '-') t = t := by
    intro t ht
    exact List.filter_eq_self.mpr (fun a ha => by simpa using h a (ht ha))
  rw [hyphenate32L, if_pos hlen, removeHyphens]
  simp only [List.filter_append]
  rw [hpiece _ (List.take_subset 8 s),
    hpiece _ (subset_trans (List.take_subset 4 _) (List.drop_subset 8 s)),
    hpiece _ (subset_trans (List.take_subset 4 _) (List.drop_subset 12 s)),
    hpiece _ (subset_trans (List.take_subset 4 _) (List.drop_subset 16 s)),
    hpiece _ (List.drop_subset 20 s)]
  have hdash : List.filter (fun c => c != '-') ['-'] = [] := by decide
  rw [hdash]
  simp only [List.nil_append, List.append_nil]
  exact take_take_drop_assemble s

theorem hyphenate32L_subset (s : List Char) : hyphenate32L s ⊆ s ++ ['-'] := by
  have hs : s ⊆ s ++ ['-'] := List.subset_append_left s ['-']
  have hd : ['-'] ⊆ s ++ ['-'] := List.subset_append_right s ['-']
  rw [hyphenate32L]
  split
  · simp only [List.append_subset]
    repeat' apply And.intro
    all_goals
      first
        | exact hd
        | exact (List.take_subset _ _).trans hs
        | exact ((List.take_subset _ _).trans (List.drop_subset _ _)).trans hs
        | exact (List.drop_subset _ _).trans hs
  · exact hs

theorem hyphenate32L_mem {s : List Char} {c : Char}
    (hc : c ∈ hyphenate32L s) : c ∈ s ∨ c = '-' := by
  have h := hyphenate32L_subset s hc
  rcases List.mem_append.mp h with h2 | h2
  · exact Or.inl h2
  · exact Or.inr (List.mem_singleton.mp h2)

/-- C4: identifier normalization is form-insensitive.  For a 32-character
identifier with no separators and no whitespace, the loaders' normalization
pipeline (strip whitespace, remove hyphens, re-hyphenate 8-4-4-4-12) maps
the compact form, its canonical hyphenated form, and either form padded
with leading/trailing whitespace, all to the same canonical hyphenated
identifier. -/
theorem notion_id_normalization (s pre post : List Char)
    (hlen : s.length = 32)
    (hs : ∀ c ∈ s, c.isWhitespace = false ∧ c ≠ '-')
    (hpre : ∀ c ∈ pre, c.isWhitespace = true)
    (hpost : ∀ c ∈ post, c.isWhitespace = true) :
    normalizeNotionId (pre ++ s ++ post) = hyphenate32L s ∧
    normalizeNotionId (pre ++ hyphenate32L s ++ post) = hyphenate32L s := by
  have hne : s ≠ [] := by
    intro h
    rw [h] at hlen
    cases hlen
  constructor
  · rw [normalizeNotionId,
      pyStrip_pad hpre hpost (fun c hc => (hs c hc).1) hne,
      removeHyphens_eq_self (fun c hc => (hs c hc).2)]
  · have hhne : hyphenate32L s ≠ [] := by
      intro h
      have h2 := congrArg List.length h
      rw [hyphenate32L, if_pos hlen] at h2
      simp [List.length_append] at h2
    have hhws : ∀ c ∈ hyphenate32L s, c.isWhitespace = false := by
      intro c hc
      rcases hyphenate32L_mem hc with h | h
      · exact (hs c h).1
      · rw [h]; decide
    rw [normalizeNotionId, pyStrip_pad hpre hpost hhws hhne,
      removeHyphens_hyphenate hlen (fun c hc => (hs c hc).2)]

/-- C4 witness: a concrete 32-character identifier, whitespace-padded in both
its compact and hyphenated forms, normalizes to its canonical hyphenated
form. -/
theorem notion_id_normalization_witness :
    normalizeNotionId ([' '] ++ "0123456789abcdef0123456789abcdef".data ++ ['\n'])
        = hyphenate32L "0123456789abcdef0123456789abcdef".data ∧
    normalizeNotionId ([' '] ++ hyphenate32L "0123456789abcdef0123456789abcdef".data ++ ['\n'])
        = hyphenate32L "0123456789abcdef0123456789abcdef".data :=
  notion_id_normalization "0123456789abcdef0123456789abcdef".data [' '] ['\n']
    (by decide) (by decide) (by decide) (by decide)

theorem insertBySim_length (sim : VecRecord → Int) (r : VecRecord)
    (l : List VecRecord) : (insertBySim sim r l).length = l.length + 1 := by
  induction l with
  | nil => rfl
  | cons x xs ih =>
      rw [insertBySim]
      split
      · rfl
      · simp [ih]

theorem rankBySim_length (sim : VecRecord → Int) (l : List VecRecord) :
    (rankBySim sim l).length = l.length := by
  induction l with
  | nil => rfl
  | cons x xs ih => rw [rankBySim, insertBySim_length, ih, List.length_cons]

/-- C6: retrieval with parameter `k` returns exactly `min k (index size)`
records — hence never more than `k`, fewer when the index holds fewer than
`k` entries — and on an empty index it returns the empty list (it is a total
function: no failure path exists). -/
theorem retrieve_at_most_k :
    (∀ (sim : String → VecRecord → Int) (index : List VecRecord) (q : String)
        (k : Nat), (retrieve sim index q k).length = min k index.length) ∧
    (∀ (sim : String → VecRecord → Int) (q : String) (k : Nat),
        retrieve sim [] q k = []) := by
  constructor
  · intro sim index q k
    rw [retrieve, List.length_take, rankBySim_length]
  · intro sim q k
    rw [retrieve, rankBySim, List.take_nil]

/-- C7: every generation failure is caught at the `get_answer` boundary and
returned as a user-safe string that contains the error text (never
propagated: `get_answer` is a total function into `String`); and a missing
index yields the distinct, actionable run-ingest-first message, which is
never equal to the generic error string. -/
theorem get_answer_catches_errors :
    (∀ (ch : String → Except String String) (q e : String),
        ch q = .error e →
        get_answer (some ch) q = "Sorry, something went wrong: " ++ e) ∧
    (∀ q : String, get_answer none q = noKnowledgeBaseMsg) ∧
    (∀ e : String, noKnowledgeBaseMsg ≠ "Sorry, something went wrong: " ++ e) := by
  refine ⟨?_, ?_, ?_⟩
  · intro ch q e he
    rw [get_answer, he]
  · intro q
    rfl
  · intro e h
    have h2 : noKnowledgeBaseMsg.data.head?
        = ("Sorry, something went wrong: " ++ e).data.head? := by rw [h]
    rw [String.data_append] at h2
    have h3 : ("Sorry, something went wrong: ").data
        = 'S' :: "orry, something went wrong: ".data := rfl
    rw [h3] at h2
    have h4 : noKnowledgeBaseMsg.data.head? = some '⚠' := rfl
    rw [h4] at h2
    simp at h2

/-- C7 witness: a chain that always fails yields the safe message with the
error text appended; the no-store case yields the run-ingest-first message,
which differs from the generic error with that same text. -/
theorem get_answer_catches_errors_witness :
    get_answer (some (fun _ => Except.error "rate limited")) "hi"
        = "Sorry, something went wrong: " ++ "rate limited" ∧
    get_answer none "hi" = noKnowledgeBaseMsg ∧
    noKnowledgeBaseMsg ≠ "Sorry, something went wrong: " ++ "rate limited" :=
  ⟨get_answer_catches_errors.1 (fun _ => Except.error "rate limited") "hi"
      "rate limited" rfl,
   get_answer_catches_errors.2.1 "hi",
   get_answer_catches_errors.2.2 "rate limited"⟩

theorem increment_usage_empty (d u : String) :
    increment_usage d [] u = [(u, [(d, 1)])] := by
  simp [increment_usage, lookupKey, setKey]

theorem increment_usage_single (d u : String) (k : Nat) (hd : d ≠ "prompts_used") :
    increment_usage d [(u, [(d, k)])] u = [(u, [(d, k + 1)])] := by
  have hbd : (d == "prompts_used") = false := by
    simp [hd]
  simp [increment_usage, lookupKey, setKey, hbd]

theorem iterIncrement_single (d u : String) (hd : d ≠ "prompts_used") :
    ∀ (n : Nat) (k : Nat),
      iterIncrement d u n [(u, [(d, k)])] = [(u, [(d, k + n)])] := by
  intro n
  induction n with
  | zero => intro k; rfl
  | succ m ih =>
      intro k
      rw [iterIncrement, increment_usage_single d u k hd, ih (k + 1)]
      have h : k + 1 + m = k + (m + 1) := by omega
      rw [h]

theorem iterIncrement_from_empty (d u : String) (n : Nat)
    (hd : d ≠ "prompts_used") :
    iterIncrement d u (n + 1) [] = [(u, [(d, n + 1)])] := by
  rw [iterIncrement, increment_usage_empty, iterIncrement_single d u hd n 1]
  have h : 1 + n = n + 1 := by omega
  rw [h]

/-- C9: starting from an empty store, after exactly 10 `increment_usage`
calls for user `u` on day `d`, `get_usage` reports 10 used and
`allowed = false`; for a different user `v`, or for `u` on a different day
`d'`, it reports 0 used and `allowed = true`.  (Dates are ISO date strings,
so they never collide with the legacy literal key "prompts_used".) -/
theorem daily_quota_exhausted_after_ten (u v d d' : String)
    (hv : v ≠ u) (hdd : d' ≠ d)
    (hd : d ≠ "prompts_used") :
    get_usage d (iterIncrement d u 10 []) u = (10, false) ∧
    get_usage d (iterIncrement d u 10 []) v = (0, true) ∧
    get_usage d' (iterIncrement d u 10 []) u = (0, true) := by
  have hstore : iterIncrement d u 10 [] = [(u, [(d, 10)])] :=
    iterIncrement_from_empty d u 9 hd
  rw [hstore]
  have hbd : (d == "prompts_used") = false := by simp [hd]
  have hbv : (u == v) = false := by
    rw [beq_eq_false_iff_ne]
    exact fun h => hv h.symm
  have hbdd : (d == d') = false := by
    rw [beq_eq_false_iff_ne]
    exact fun h => hdd h.symm
  refine ⟨?_, ?_, ?_⟩
  · simp [get_usage, lookupKey, hbd, DAILY_LIMIT]
  · simp [get_usage, lookupKey, hbv, DAILY_LIMIT]
  · simp [get_usage, lookupKey, hbd, hbdd, DAILY_LIMIT]

/-- C9 witness: concrete users and ISO dates. -/
theorem daily_quota_exhausted_after_ten_witness :
    get_usage "2026-10-12" (iterIncrement "2026-10-12" "alice@example.com" 10 [])
        "alice@example.com" = (10, false) ∧
    get_usage "2026-10-12" (iterIncrement "2026-10-12" "alice@example.com" 10 [])
        "bob@example.com" = (0, true) ∧
    get_usage "2026-10-13" (iterIncrement "2026-10-12" "alice@example.com" 10 [])
        "alice@example.com" = (0, true) :=
  daily_quota_exhausted_after_ten "alice@example.com" "bob@example.com"
    "2026-10-12" "2026-10-13" (by decide) (by decide) (by decide)

theorem hardSplit_le (size : Nat) (hsz : 0 < size) :
    ∀ (n : Nat) (t : List Char), t.length ≤ n →
      ∀ c ∈ hardSplit size t, c.length ≤ size := by
  intro n
  induction n with
  | zero =>
      intro t ht c hc
      rw [hardSplit, dif_pos (Or.inr (by omega))] at hc
      rw [List.mem_singleton] at hc
      subst hc
      omega
  | succ m ih =>
      intro t ht c hc
      rw [hardSplit] at hc
      by_cases hcase : size = 0 ∨ t.length ≤ size
      · rw [dif_pos hcase] at hc
        rw [List.mem_singleton] at hc
        subst hc
        rcases hcase with h | h
        · omega
        · exact h
      · rw [dif_neg hcase] at hc
        push_neg at hcase
        rcases List.mem_cons.mp hc with hceq | hc2
        · subst hceq
          rw [List.length_take]
          omega
        · refine ih (t.drop size) ?_ c hc2
          rw [List.length_drop]
          omega

theorem splitRec_le (size : Nat) (hsz : 0 < size) :
    ∀ (seps : List (List Char)) (t : List Char),
      ∀ c ∈ splitRec size seps t, c.length ≤ size := by
  intro seps
  induction seps with
  | nil =>
      intro t c hc
      rw [splitRec] at hc
      by_cases hle : t.length ≤ size
      · rw [if_pos hle, List.mem_singleton] at hc
        subst hc
        exact hle
      · rw [if_neg hle] at hc
        exact hardSplit_le size hsz t.length t le_rfl c hc
  | cons s rest ih =>
      intro t c hc
      rw [splitRec] at hc
      by_cases hle : t.length ≤ size
      · rw [if_pos hle, List.mem_singleton] at hc
        subst hc
        exact hle
      · rw [if_neg hle] at hc
        obtain ⟨piece, hp, hcp⟩ := List.mem_flatMap.mp hc
        exact ih piece c hcp

theorem mergeSplits_le (size overlap : Nat) :
    ∀ (ps : List (List Char)) (acc : List Char), acc.length ≤ size →
      (∀ p ∈ ps, p.length ≤ size) →
      ∀ c ∈ mergeSplits size overlap acc ps, c.length ≤ size := by
  intro ps
  induction ps with
  | nil =>
      intro acc hacc hps c hc
      rw [mergeSplits, List.mem_singleton] at hc
      subst hc
      exact hacc
  | cons p ps ih =>
      intro acc hacc hps c hc
      have hp : p.length ≤ size := hps p (List.mem_cons_self p ps)
      have hps2 : ∀ q ∈ ps, q.length ≤ size :=
        fun q hq => hps q (List.mem_cons_of_mem p hq)
      rw [mergeSplits] at hc
      by_cases h1 : acc.length + p.length ≤ size
      · rw [if_pos h1] at hc
        exact ih (acc ++ p) (by rw [List.length_append]; omega) hps2 c hc
      · rw [if_neg h1] at hc
        rcases List.mem_cons.mp hc with hceq | hc2
        · subst hceq
          exact hacc
        · by_cases h2 : (takeRight overlap acc ++ p).length ≤ size
          · rw [if_pos h2] at hc2
            exact ih (takeRight overlap acc ++ p) h2 hps2 c hc2
          · rw [if_neg h2] at hc2
            exact ih p hp hps2 c hc2

theorem chunkText_le (size overlap : Nat) (hsz : 0 < size) (t : List Char) :
    ∀ c ∈ chunkText size overlap t, c.length ≤ size := by
  intro c hc
  rw [chunkText] at hc
  exact mergeSplits_le size overlap (splitRec size chunkSeparators t) []
    (by simp) (fun p hp => splitRec_le size hsz chunkSeparators t p hp) c
    (List.mem_of_mem_filter hc)

/-- C8: with the repository's chunking configuration
(`chunk_size = 800`, `chunk_overlap = 150`, rag.py:30-31,93-96), every
chunk produced from any document set has length at most 800.  The separator
list ends with the hard character boundary, so the bound holds outright and
the indivisible-token exception of the claim is never needed. -/
theorem chunk_length_bounded (docs : List Document) :
    ∀ c ∈ splitDocuments DEFAULT_CHUNK_SIZE DEFAULT_CHUNK_OVERLAP docs,
      c.length ≤ 800 := by
  intro c hc
  obtain ⟨d, hd, hcd⟩ := List.mem_flatMap.mp hc
  exact chunkText_le DEFAULT_CHUNK_SIZE DEFAULT_CHUNK_OVERLAP (by decide)
    d.page_content.data c hcd

/-- C8 witness: a concrete short document yields itself as its single chunk,
which is within the bound. -/
theorem chunk_length_bounded_witness :
    "hello".data ∈ splitDocuments DEFAULT_CHUNK_SIZE DEFAULT_CHUNK_OVERLAP
        [⟨"hello", "src", "t"⟩] ∧ ("hello".data).length ≤ 800 :=
  ⟨by decide,
   chunk_length_bounded [⟨"hello", "src", "t"⟩] "hello".data (by decide)⟩

/-- C5 counterexample: a nonempty documents list whose single document has
empty text produces zero chunks, yet `create_vector_store` succeeds instead
of failing — its guard (rag.py:91-92) checks the documents list, not the
chunk list. -/
theorem create_vector_store_zero_chunks_not_rejected :
    createVectorStore [⟨"", "src", "t"⟩] DEFAULT_CHUNK_SIZE DEFAULT_CHUNK_OVERLAP
      = .ok [] := rfl

/-- C5 (amended): `create_vector_store` fails with the distinct
"No documents to process." error exactly when the documents list is empty;
a nonempty documents list always succeeds — even when it chunks to nothing
— so a zero-chunk index arising from nonempty input is not detected. -/
theorem create_vector_store_empty_list_error :
    (∀ (cs co : Nat), createVectorStore [] cs co = .error noDocumentsMsg) ∧
    noDocumentsMsg ≠ noKnowledgeBaseMsg ∧
    (∀ (docs : List Document) (cs co : Nat), docs ≠ [] →
        createVectorStore docs cs co = .ok (splitDocuments cs co docs)) := by
  refine ⟨fun cs co => rfl, by decide, ?_⟩
  intro docs cs co hne
  rw [createVectorStore, if_neg]
  simp only [List.isEmpty_iff]
  exact hne

/-- C5 witness: the empty list is rejected with the "No documents" error; a
concrete nonempty list is accepted. -/
theorem create_vector_store_empty_list_error_witness :
    createVectorStore [] 800 150 = .error noDocumentsMsg ∧
    createVectorStore [⟨"hi", "s", "t"⟩] 800 150
      = .ok (splitDocuments 800 150 [⟨"hi", "s", "t"⟩]) :=
  ⟨create_vector_store_empty_list_error.1 800 150,
   create_vector_store_empty_list_error.2.2 [⟨"hi", "s", "t"⟩] 800 150
     (by decide)⟩

theorem loadPagesLoop_skips_malformed (env : NotionEnv) (bad : String)
    (hbad : (removeHyphens (pyStrip bad.data)).length ≠ 32) :
    ∀ (ids1 ids2 : List String) (seen : List String),
      loadPagesLoop env seen (ids1 ++ bad :: ids2)
        = loadPagesLoop env seen (ids1 ++ ids2) := by
  intro ids1
  induction ids1 with
  | nil =>
      intro ids2 seen
      rw [List.nil_append, List.nil_append, loadPagesLoop]
      have hlen : (String.mk (removeHyphens (pyStrip bad.data))).length ≠ 32 := by
        simpa [String.length] using hbad
      rw [if_pos hlen]
  | cons a ids1 ih =>
      intro ids2 seen
      rw [List.cons_append, List.cons_append, loadPagesLoop, loadPagesLoop]
      by_cases hl : (String.mk (removeHyphens (pyStrip a.data))).length ≠ 32
      · rw [if_pos hl, if_pos hl, ih]
      · rw [if_neg hl, if_neg hl]
        cases env.discover (hyphenateId (String.mk (removeHyphens (pyStrip a.data)))) with
        | some ds_id =>
            dsimp only
            by_cases hseen : ds_id ∈ seen
            · rw [if_pos hseen, if_pos hseen, ih]
            · rw [if_neg hseen, if_neg hseen]
              cases env.dsDocs ds_id with
              | error e => rfl
              | ok ds =>
                  dsimp only
                  rw [ih]
        | none =>
            dsimp only
            cases env.pageDocs (String.mk (removeHyphens (pyStrip a.data))) with
            | error e => rfl
            | ok ps =>
                dsimp only
                rw [ih]

/-- C10: an entry of `page_ids` whose value, stripped of whitespace and
hyphens, is not exactly 32 characters long is silently skipped by
`load_notion_documents`: no Document is yielded for it, no error is raised,
and the remaining identifiers are processed exactly as if the malformed
entry were absent. -/
theorem malformed_page_id_silently_skipped (env : NotionEnv)
    (ids1 ids2 : List String) (bad : String)
    (hbad : (removeHyphens (pyStrip bad.data)).length ≠ 32) :
    loadNotionDocuments env (some (ids1 ++ bad :: ids2)) none none
      = loadNotionDocuments env (some (ids1 ++ ids2)) none none := by
  rw [loadNotionDocuments, loadNotionDocuments]
  rw [loadPagesLoop_skips_malformed env bad hbad ids1 ids2 []]

/-- C10 witness: a malformed three-character entry between two well-formed
32-character entries changes nothing in the result. -/
theorem malformed_page_id_silently_skipped_witness :
    loadNotionDocuments
        ⟨fun _ => none, fun s => .ok [⟨s, s, s⟩], fun s => .ok [⟨s, s, s⟩],
         fun s => .ok [⟨s, s, s⟩]⟩
        (some (["aaaaaaaaaaaaaaaaaaaaaaaaaaaaaaaa"] ++ "xyz"
          :: ["bbbbbbbbbbbbbbbbbbbbbbbbbbbbbbbb"])) none none
      = loadNotionDocuments
        ⟨fun _ => none, fun s => .ok [⟨s, s, s⟩], fun s => .ok [⟨s, s, s⟩],
         fun s => .ok [⟨s, s, s⟩]⟩
        (some (["aaaaaaaaaaaaaaaaaaaaaaaaaaaaaaaa"]
          ++ ["bbbbbbbbbbbbbbbbbbbbbbbbbbbbbbbb"])) none none :=
  malformed_page_id_silently_skipped
    ⟨fun _ => none, fun s => .ok [⟨s, s, s⟩], fun s => .ok [⟨s, s, s⟩],
     fun s => .ok [⟨s, s, s⟩]⟩
    ["aaaaaaaaaaaaaaaaaaaaaaaaaaaaaaaa"] ["bbbbbbbbbbbbbbbbbbbbbbbbbbbbbbbb"]
    "xyz" (by decide)
